import Mathlib

/-!
Verification of the CompressionGenie batch video compressor.

The development shallowly embeds the Python sources:
  * `video_compressor.py` — the `CompressionStats` accumulator, the
    `parse_ffmpeg_progress` line parser and the pre-launch checks of
    `compress_video`;
  * `video_compressor_ui.py` — the `CompressionManager` task dictionary, the
    worker bookkeeping (`try_start_task`, `task_finished`, `cancel_task`,
    `update_thread_count`) and the settings validation / task creation of
    `start_compression`.

Python floats are modelled over `ℚ` (every concrete value exercised below is
exactly representable in binary floating point), machine strings over `String`,
and the insertion-ordered `dict` over an association list.
-/

namespace CompressionGenie

/-- Maximal run of decimal digits at the head of a character list together with
the rest: a greedy `\d+` / `\d*` item of the CPython regex engine (the parsed
FFmpeg diagnostic lines are ASCII, so ASCII digits model `\d`). -/
def digitsSplit : List Char → List Char × List Char
  | [] => ([], [])
  | c :: cs =>
    if c.isDigit then
      let p := digitsSplit cs
      (c :: p.1, p.2)
    else ([], c :: cs)

/-- The CPython regex class `\s` on ASCII input: space, tab, newline, vertical
tab, form feed, carriage return. -/
def pyIsSpace (c : Char) : Bool :=
  c == ' ' || c == '\t' || c == '\n' || c == '\x0b' || c == '\x0c' || c == '\r'

/-- Maximal run of whitespace at the head of a character list, with the rest:
a greedy `\s*` item. -/
def spacesSplit : List Char → List Char × List Char
  | [] => ([], [])
  | c :: cs =>
    if pyIsSpace c then
      let p := spacesSplit cs
      (c :: p.1, p.2)
    else ([], c :: cs)

/-- Python `int` applied to a `\d+` capture. -/
def natOfDigits (ds : List Char) : Nat :=
  ds.foldl (fun n c => 10 * n + (c.toNat - 48)) 0

/-- Group 3 of the pattern `time=(\d+):(\d+):(\d+.\d+)` from
`parse_ffmpeg_progress`.  The `.` in the source pattern is unescaped, so it
matches any character: the capture is either digits, one arbitrary non-digit
character, digits (`mid`), or — when backtracking hands the any-character spot
back to the digit run itself — a pure digit string of length at least 3
(`allDigits`). -/
inductive SecTok where
  | mid (a : List Char) (c : Char) (b : List Char)
  | allDigits (d : List Char)
deriving DecidableEq, Repr

/-- Python `float()` applied to the seconds capture: `A.B` is a decimal,
`AeB`/`AEB` scientific notation, `A_B` digit-separator syntax; any other middle
character raises `ValueError`, modelled as `none`.  A pure digit capture is an
integer.  (In `mid` the middle character is never itself a digit, because the
digit run before it is maximal.) -/
def secondsVal : SecTok → Option ℚ
  | .mid a c b =>
    if c = '.' then some ((natOfDigits a : ℚ) + (natOfDigits b : ℚ) / 10 ^ b.length)
    else if c = 'e' ∨ c = 'E' then some ((natOfDigits a : ℚ) * 10 ^ natOfDigits b)
    else if c = '_' then some (natOfDigits (a ++ b) : ℚ)
    else none
  | .allDigits d => some (natOfDigits d : ℚ)

/-- Match `time=(\d+):(\d+):(\d+.\d+)` anchored at the head of the list with
CPython's greedy-with-backtracking semantics, yielding the three captures.
For the last group, the engine first lets the leading `\d+` take the whole
maximal digit run and the unescaped `.` take the following character (which
then must be followed by at least one more digit); failing that it backtracks
until the `.` consumes the second-to-last digit of the run, which needs a run
of length at least 3. -/
def timeMatchAt (l : List Char) : Option (Nat × Nat × SecTok) :=
  if "time=".data.isPrefixOf l then
    let p1 := digitsSplit (l.drop 5)
    if p1.1 = [] then none else
    match p1.2 with
    | ':' :: r1 =>
      let p2 := digitsSplit r1
      if p2.1 = [] then none else
      match p2.2 with
      | ':' :: r2 =>
        let p3 := digitsSplit r2
        if p3.1 = [] then none else
        match p3.2 with
        | c :: rest =>
          let p4 := digitsSplit rest
          if p4.1 ≠ [] then some (natOfDigits p1.1, natOfDigits p2.1, .mid p3.1 c p4.1)
          else if 3 ≤ p3.1.length then
            some (natOfDigits p1.1, natOfDigits p2.1, .allDigits p3.1)
          else none
        | [] =>
          if 3 ≤ p3.1.length then
            some (natOfDigits p1.1, natOfDigits p2.1, .allDigits p3.1)
          else none
      | _ => none
    | _ => none
  else none

/-- `re.search` of the time pattern: scan start positions left to right, first
successful match wins. -/
def timeSearch : List Char → Option (Nat × Nat × SecTok)
  | [] => none
  | c :: cs =>
    match timeMatchAt (c :: cs) with
    | some r => some r
    | none => timeSearch cs

/-- Match `frame=\s*(\d+)` anchored at the head of the list. -/
def frameMatchAt (l : List Char) : Option Nat :=
  if "frame=".data.isPrefixOf l then
    let p := digitsSplit (spacesSplit (l.drop 6)).2
    if p.1 = [] then none else some (natOfDigits p.1)
  else none

/-- `re.search` of the frame pattern. -/
def frameSearch : List Char → Option Nat
  | [] => none
  | c :: cs =>
    match frameMatchAt (c :: cs) with
    | some n => some n
    | none => frameSearch cs

/-- Match `size=\s*(\d+)kB` anchored at the head of the list. -/
def sizeMatchAt (l : List Char) : Option Nat :=
  if "size=".data.isPrefixOf l then
    let p := digitsSplit (spacesSplit (l.drop 5)).2
    if p.1 = [] then none
    else if "kB".data.isPrefixOf p.2 then some (natOfDigits p.1)
    else none
  else none

/-- `re.search` of the size pattern. -/
def sizeSearch : List Char → Option Nat
  | [] => none
  | c :: cs =>
    match sizeMatchAt (c :: cs) with
    | some n => some n
    | none => sizeSearch cs

/-- `CompressionStats` from `video_compressor.py`.  `start_time` is replaced by
the ambient `elapsed` argument of the parser (`time.time() - stats.start_time`);
all float fields are modelled over `ℚ`. -/
structure CompressionStats where
  frame_count : Nat := 0
  duration : ℚ := 0
  processed_frames : Nat := 0
  processed_duration : ℚ := 0
  current_fps : ℚ := 0
  average_fps : ℚ := 0
  estimated_time : ℚ := 0
  file_size : Nat := 0
  current_size : Nat := 0
deriving DecidableEq, Repr

/-- The `progress` dict returned by `parse_ffmpeg_progress`: each key is
`none` when the corresponding assignment was never executed. -/
structure ProgressDict where
  percentage : Option ℚ := none
  frame : Option Nat := none
  fps : Option ℚ := none
  size : Option Nat := none
  time : Option ℚ := none
  estimated_time : Option ℚ := none
deriving DecidableEq, Repr

/-- The frame block of `parse_ffmpeg_progress`, given the stats left by the
time block and the percentage entry it produced.  The block can raise
`ZeroDivisionError` (`remaining_frames / stats.current_fps` with a zero fps,
i.e. a zero frame counter while `frame_count` is known); the surrounding
`except` then returns the dict built so far — exactly the percentage entry —
with the stats mutations already performed, modelled by the `error` case. -/
def frameBlock (line : String) (stats1 : CompressionStats) (elapsed : ℚ)
    (pct : Option ℚ) : Except (CompressionStats × ProgressDict) CompressionStats :=
  match frameSearch line.data with
  | none => .ok stats1
  | some n =>
    let stats2 := { stats1 with processed_frames := n }
    if 0 < elapsed then
      let fps : ℚ := (n : ℚ) / elapsed
      let stats3 := { stats2 with current_fps := fps }
      if 0 < stats3.frame_count then
        if fps = 0 then .error (stats3, { percentage := pct })
        else .ok { stats3 with
          estimated_time := ((stats3.frame_count : ℚ) - (stats3.processed_frames : ℚ)) / fps }
      else .ok stats3
    else .ok stats2

/-- The frame block, the size block and the final `progress.update` of
`parse_ffmpeg_progress`; on a `ZeroDivisionError` in the frame block the size
block and the final update are skipped. -/
def parseFrameSizeBlocks (line : String) (stats1 : CompressionStats) (elapsed : ℚ)
    (pct : Option ℚ) : CompressionStats × ProgressDict :=
  match frameBlock line stats1 elapsed pct with
  | .error r => r
  | .ok stats2 =>
    let stats3 :=
      match sizeSearch line.data with
      | none => stats2
      | some kb => { stats2 with current_size := kb * 1024 }
    (stats3,
      { percentage := pct,
        frame := some stats3.processed_frames,
        fps := some stats3.current_fps,
        size := some stats3.current_size,
        time := some stats3.processed_duration,
        estimated_time := some stats3.estimated_time })

/-- `parse_ffmpeg_progress` from `video_compressor.py`.  The Python body is
wrapped in `try/except`; the reachable exception points are `float()` on a
malformed seconds capture (the unescaped `.` can swallow a non-numeric
character) and the zero-fps division in the frame block.  In both cases the
`except` branch returns the `progress` dict built so far and the remaining
statements — including the stats assignments after the raise point — are
skipped. -/
def parse_ffmpeg_progress (line : String) (stats : CompressionStats) (elapsed : ℚ) :
    CompressionStats × ProgressDict :=
  match timeSearch line.data with
  | none => parseFrameSizeBlocks line stats elapsed none
  | some (h, m, tok) =>
    match secondsVal tok with
    | none => (stats, {})
    | some s =>
      let pd : ℚ := (h : ℚ) * 3600 + (m : ℚ) * 60 + s
      let stats1 := { stats with processed_duration := pd }
      parseFrameSizeBlocks line stats1 elapsed
        (if 0 < stats1.duration then some (min 100 (pd / stats1.duration * 100)) else none)

theorem frameBlock_error_percentage (line : String) (stats1 : CompressionStats)
    (elapsed : ℚ) (pct : Option ℚ) (r : CompressionStats × ProgressDict)
    (h : frameBlock line stats1 elapsed pct = .error r) : r.2.percentage = pct := by
  unfold frameBlock at h
  rcases hf : frameSearch line.data with _ | n <;> rw [hf] at h
  · cases h
  · dsimp only at h
    split at h
    · split at h
      · split at h
        · cases h
          rfl
        · cases h
      · cases h
    · cases h

/-- Whatever the frame and size blocks do, the returned dict's `percentage`
entry is exactly the one produced by the time block. -/
theorem parseFrameSizeBlocks_percentage (line : String) (stats1 : CompressionStats)
    (elapsed : ℚ) (pct : Option ℚ) :
    (parseFrameSizeBlocks line stats1 elapsed pct).2.percentage = pct := by
  unfold parseFrameSizeBlocks
  rcases hb : frameBlock line stats1 elapsed pct with r | stats2
  · exact frameBlock_error_percentage line stats1 elapsed pct r hb
  · dsimp only

/-- The data of the literal progress line used by the spec's round-trip test. -/
def specLine : String :=
  "frame=  120 fps=30 q=28.0 size=  2048kB time=00:00:04.00 bitrate=... speed=1.0x"

/-- A `CompressionStats` accumulator fresh from `get_video_info` with a known
total duration of 10 seconds and no known frame count. -/
def specStats : CompressionStats := { duration := 10 }

theorem timeSearch_specLine :
    timeSearch specLine.data = some (0, 0, SecTok.mid ['0', '4'] '.' ['0', '0']) := by
  rfl

theorem secondsVal_specTok :
    secondsVal (SecTok.mid ['0', '4'] '.' ['0', '0']) = some 4 := by
  have h1 : natOfDigits ['0', '4'] = 4 := rfl
  have h2 : natOfDigits ['0', '0'] = 0 := rfl
  simp [secondsVal, h1, h2]

theorem frameSearch_specLine : frameSearch specLine.data = some 120 := by
  rfl

theorem sizeSearch_specLine : sizeSearch specLine.data = some 2048 := by
  rfl

/-- C5: parsing the spec's literal FFmpeg line updates the accumulator to
frame count 120, output size 2048 kB = 2097152 bytes and processed duration
4.0 s, the returned record carries the same values, and with the total
duration 10.0 the percentage is 40. -/
theorem c5_parse_literal_line :
    (parse_ffmpeg_progress specLine specStats 2).2.frame = some 120 ∧
    (parse_ffmpeg_progress specLine specStats 2).2.size = some 2097152 ∧
    (parse_ffmpeg_progress specLine specStats 2).2.time = some 4 ∧
    (parse_ffmpeg_progress specLine specStats 2).2.percentage = some 40 ∧
    (parse_ffmpeg_progress specLine specStats 2).1.processed_frames = 120 ∧
    (parse_ffmpeg_progress specLine specStats 2).1.current_size = 2097152 ∧
    (parse_ffmpeg_progress specLine specStats 2).1.processed_duration = 4 := by
  have hres : parse_ffmpeg_progress specLine specStats 2 =
      ({ frame_count := 0, duration := 10, processed_frames := 120,
         processed_duration := 4, current_fps := 60, average_fps := 0,
         estimated_time := 0, file_size := 0, current_size := 2097152 },
       { percentage := some 40, frame := some 120, fps := some 60,
         size := some 2097152, time := some 4, estimated_time := some 0 }) := by
    norm_num [parse_ffmpeg_progress, parseFrameSizeBlocks, frameBlock,
      timeSearch_specLine, secondsVal_specTok, frameSearch_specLine,
      sizeSearch_specLine, specStats, min_def]
  rw [hres]
  exact ⟨rfl, rfl, rfl, rfl, rfl, rfl, rfl⟩

/-- C6: when the total duration is unknown (0) the returned record has no
percentage entry (the guarded division is never executed); when the duration
is known and positive and a time token was extracted from the line, the
percentage equals `min 100 (100 * processedDuration / duration)`. -/
theorem c6_percentage_guard (line : String) (stats : CompressionStats) (elapsed : ℚ) :
    (stats.duration = 0 →
      (parse_ffmpeg_progress line stats elapsed).2.percentage = none) ∧
    (0 < stats.duration →
      ∀ h m tok s, timeSearch line.data = some (h, m, tok) → secondsVal tok = some s →
        (parse_ffmpeg_progress line stats elapsed).2.percentage =
          some (min 100 (100 * ((h : ℚ) * 3600 + (m : ℚ) * 60 + s) / stats.duration))) := by
  constructor
  · intro hd
    unfold parse_ffmpeg_progress
    rcases ht : timeSearch line.data with _ | ⟨h, m, tok⟩
    · exact parseFrameSizeBlocks_percentage ..
    · dsimp only
      rcases hs : secondsVal tok with _ | s
      · rfl
      · dsimp only
        rw [parseFrameSizeBlocks_percentage]
        rw [if_neg]
        rw [hd]
        exact lt_irrefl 0
  · intro hd h m tok s ht hs
    unfold parse_ffmpeg_progress
    rw [ht]
    dsimp only
    rw [hs]
    dsimp only
    rw [parseFrameSizeBlocks_percentage, if_pos hd]
    have harith : ((h : ℚ) * 3600 + (m : ℚ) * 60 + s) / stats.duration * 100 =
        100 * ((h : ℚ) * 3600 + (m : ℚ) * 60 + s) / stats.duration := by
      ring
    rw [harith]

/-- Witness for C6 at concrete inputs: the spec line parsed with an unknown
duration yields no percentage, and parsed with duration 10 yields 40 %. -/
theorem c6_percentage_guard_witness :
    (parse_ffmpeg_progress specLine { } 2).2.percentage = none ∧
    (parse_ffmpeg_progress specLine specStats 2).2.percentage = some 40 := by
  constructor
  · exact (c6_percentage_guard specLine { } 2).1 rfl
  · have h := (c6_percentage_guard specLine specStats 2).2 (by norm_num [specStats]) 0 0
      (.mid ['0', '4'] '.' ['0', '0']) 4 timeSearch_specLine secondsVal_specTok
    rw [h]
    norm_num [specStats, min_def]

/-- C7: a line in which none of the three recognized token patterns occurs
leaves every field of the accumulator untouched and produces the empty-delta
record: no percentage entry, and every other entry merely echoing the current
accumulator values. -/
theorem c7_unrecognized_line_untouched (line : String) (stats : CompressionStats)
    (elapsed : ℚ) (h1 : timeSearch line.data = none) (h2 : frameSearch line.data = none)
    (h3 : sizeSearch line.data = none) :
    parse_ffmpeg_progress line stats elapsed =
      (stats,
        { percentage := none,
          frame := some stats.processed_frames,
          fps := some stats.current_fps,
          size := some stats.current_size,
          time := some stats.processed_duration,
          estimated_time := some stats.estimated_time }) := by
  unfold parse_ffmpeg_progress parseFrameSizeBlocks frameBlock
  rw [h1, h2, h3]

/-- Witness for C7: a free-text diagnostic line with none of the tokens. -/
theorem c7_unrecognized_line_witness :
    parse_ffmpeg_progress "Stream mapping: Stream #0:0 -> #0:0 (h264 (native))"
        specStats 2 =
      (specStats,
        { percentage := none,
          frame := some 0,
          fps := some 0,
          size := some 0,
          time := some 0,
          estimated_time := some 0 }) :=
  c7_unrecognized_line_untouched _ specStats 2 (by decide) (by decide) (by decide)

/-- The `VideoPreset` enum of `video_compressor.py`. -/
inductive VideoPreset where
  | FAST
  | BALANCED
  | BEST
deriving DecidableEq, Repr

/-- The FFmpeg preset string carried by each `VideoPreset` member. -/
def VideoPreset.presetString : VideoPreset → String
  | .FAST => "ultrafast"
  | .BALANCED => "medium"
  | .BEST => "veryslow"

/-- The `CompressionTask` dataclass of `video_compressor_ui.py` (defaults:
`progress = 0`, `status = "Pending"`). -/
structure CompressionTask where
  input_path : String
  output_path : String
  preset : VideoPreset
  crf : Int
  resolution : Option (Int × Int) := none
  bitrate : Option String := none
  progress : Int := 0
  status : String := "Pending"
deriving DecidableEq, Repr

/-- One UI `CompressionWorker` QThread as seen by the manager.  The ffmpeg
child process is launched inside `compress_video` and held only in a local
variable of the worker thread, so the manager holds no handle to it;
`procTerminated` records whether any executed code path called `terminate()`
on that child process (the orphaned `compression_worker.py` variant has such a
call in its `stop()` method, but that class is imported nowhere), and
`threadTerminated` records a `QThread.terminate()` call on the worker
itself. -/
structure Worker where
  task_id : String
  threadTerminated : Bool := false
  procTerminated : Bool := false
deriving DecidableEq, Repr

/-- The mutable state shared by `CompressionManager` and its `QThreadPool`:
`tasks` is the insertion-ordered `Dict[str, CompressionTask]` as an
association list, `active_workers` the list of live workers, `maxThreads` the
pool's `maxThreadCount`. -/
structure ManagerState where
  tasks : List (String × CompressionTask)
  active_workers : List Worker
  maxThreads : Nat
deriving DecidableEq, Repr

/-- Python exceptions that can escape the embedded manager code. -/
inductive PyErr where
  | keyError (k : String)
  | valueError (msg : String)
deriving DecidableEq, Repr

/-- `tasks[task_id]` dictionary read. -/
def lookupTask (ts : List (String × CompressionTask)) (tid : String) :
    Option CompressionTask :=
  (ts.find? (fun kt => kt.1 == tid)).map (·.2)

/-- The status of the dict entry `tid`. -/
def lookupStatus (ts : List (String × CompressionTask)) (tid : String) :
    Option String :=
  (lookupTask ts tid).map (·.status)

/-- `tasks[task_id] = task` dictionary write on the insertion-ordered dict:
replaces in place when the key exists, appends at the end otherwise. -/
def dictSet (ts : List (String × CompressionTask)) (tid : String)
    (t : CompressionTask) : List (String × CompressionTask) :=
  if ts.any (fun kt => kt.1 == tid) then
    ts.map (fun kt => if kt.1 == tid then (kt.1, t) else kt)
  else ts ++ [(tid, t)]

/-- `task.status = st` for the dict entry `tid` (in-place field mutation,
position in the dict order unchanged). -/
def setStatus (ts : List (String × CompressionTask)) (tid : String)
    (st : String) : List (String × CompressionTask) :=
  ts.map (fun kt => if kt.1 == tid then (kt.1, { kt.2 with status := st }) else kt)

/-- `VideoCompressorUI.update_task_status`: reads `tasks[task_id]` — raising
`KeyError` when the id is absent — and mutates the task's `status` field.  The
table-widget text refresh is presentation-only and not modelled. -/
def update_task_status (s : ManagerState) (tid : String) (st : String) :
    Except PyErr ManagerState :=
  match lookupTask s.tasks tid with
  | none => .error (.keyError tid)
  | some _ => .ok { s with tasks := setStatus s.tasks tid st }

/-- `VideoCompressorUI.try_start_task`: when the number of active workers is
strictly below the pool's `maxThreadCount`, look up the task (`KeyError` when
absent), start a fresh worker thread for it, append it to `active_workers` and
set the task's status to "Processing..."; otherwise do nothing. -/
def try_start_task (s : ManagerState) (tid : String) : Except PyErr ManagerState :=
  if s.active_workers.length < s.maxThreads then
    match lookupTask s.tasks tid with
    | none => .error (.keyError tid)
    | some _ =>
      .ok { s with
        active_workers := s.active_workers ++ [{ task_id := tid }],
        tasks := setStatus s.tasks tid "Processing..." }
  else .ok s

/-- The head of the `pending_tasks` comprehension: the id of the first dict
entry whose status is "Pending", in insertion (= submission) order. -/
def firstPending (ts : List (String × CompressionTask)) : Option String :=
  (ts.find? (fun kt => kt.2.status == "Pending")).map (·.1)

/-- `VideoCompressorUI.task_finished`: set the finished task's status to
"Completed" or "Failed" (`KeyError` when the id is absent), drop its workers
from `active_workers` (a list-comprehension filter), and hand the first
Pending task, if any, to `try_start_task`.  The all-done message box is
presentation-only and not modelled; the `message` argument is unused by the
source as well. -/
def task_finished (s : ManagerState) (tid : String) (success : Bool)
    (_message : String) : Except PyErr ManagerState :=
  match update_task_status s tid (if success then "Completed" else "Failed") with
  | .error e => .error e
  | .ok s1 =>
    let s2 := { s1 with
      active_workers := s1.active_workers.filter (fun w => w.task_id != tid) }
    match firstPending s2.tasks with
    | some p => try_start_task s2 p
    | none => .ok s2

/-- `VideoCompressorUI.cancel_task`: reads `tasks[task_id]` first — raising
`KeyError` when the id was never submitted — then walks `active_workers` for
the first worker with that task id, calls `QThread.terminate()` and `wait()`
on it and removes it (the worker is returned as the second component so its
flags stay observable; note the ffmpeg child process receives no terminate
call anywhere on this path); then unconditionally sets the task's status to
"Cancelled" and hands the first Pending task, if any, to `try_start_task`. -/
def cancel_task (s : ManagerState) (tid : String) :
    Except PyErr (ManagerState × Option Worker) :=
  match lookupTask s.tasks tid with
  | none => .error (.keyError tid)
  | some _ =>
    let removed := (s.active_workers.find? (fun w => w.task_id == tid)).map
      (fun w => { w with threadTerminated := true })
    let s1 := { s with
      active_workers := s.active_workers.eraseP (fun w => w.task_id == tid),
      tasks := setStatus s.tasks tid "Cancelled" }
    match firstPending s1.tasks with
    | some p => (try_start_task s1 p).map (fun s2 => (s2, removed))
    | none => .ok (s1, removed)

/-- `VideoCompressorUI.update_thread_count`: `setMaxThreadCount(value)` on the
manager's thread pool. -/
def update_thread_count (v : Nat) (s : ManagerState) : ManagerState :=
  { s with maxThreads := v }

/-- One iteration of the task-creation loop of `start_compression`, at manager
level: store a freshly constructed `CompressionTask` (dataclass defaults:
progress 0, status "Pending") under a generated id, then `try_start_task`
it. -/
def submit_task (s : ManagerState) (tid : String) (t : CompressionTask) :
    Except PyErr ManagerState :=
  let s1 := { s with
    tasks := dictSet s.tasks tid { t with progress := 0, status := "Pending" } }
  try_start_task s1 tid

/-- The manager-level events of the UI: a submission, a worker progress
signal (which stores the message into the task's status field), a worker
finished signal, a cancel click, and a change of the concurrency spin box. -/
inductive Event where
  | submit (tid : String) (t : CompressionTask)
  | progress (tid : String) (msg : String)
  | finished (tid : String) (success : Bool) (msg : String)
  | cancel (tid : String)
  | setMax (v : Nat)
deriving DecidableEq, Repr

/-- One step of the manager: dispatch an event to the handler the UI connects
it to. -/
def step (s : ManagerState) : Event → Except PyErr ManagerState
  | .submit tid t => submit_task s tid t
  | .progress tid msg => update_task_status s tid msg
  | .finished tid success msg => task_finished s tid success msg
  | .cancel tid => (cancel_task s tid).map (·.1)
  | .setMax v => .ok (update_thread_count v s)

theorem update_task_status_ok (s : ManagerState) (tid st : String)
    (s' : ManagerState) (h : update_task_status s tid st = .ok s') :
    s' = { s with tasks := setStatus s.tasks tid st } := by
  unfold update_task_status at h
  rcases hl : lookupTask s.tasks tid with _ | tk <;> rw [hl] at h
  · cases h
  · injection h with h
    exact h.symm

theorem try_start_task_full (s : ManagerState) (tid : String)
    (h : s.maxThreads ≤ s.active_workers.length) :
    try_start_task s tid = .ok s := by
  unfold try_start_task
  rw [if_neg (Nat.not_lt.mpr h)]

theorem try_start_task_bound (s : ManagerState) (tid : String) (s' : ManagerState)
    (hb : s.active_workers.length ≤ s.maxThreads)
    (h : try_start_task s tid = .ok s') :
    s'.active_workers.length ≤ s'.maxThreads ∧ s'.maxThreads = s.maxThreads := by
  unfold try_start_task at h
  by_cases hlt : s.active_workers.length < s.maxThreads
  · rw [if_pos hlt] at h
    rcases hl : lookupTask s.tasks tid with _ | tk <;> rw [hl] at h
    · cases h
    · injection h with h
      subst h
      refine ⟨?_, rfl⟩
      simpa using hlt
  · rw [if_neg hlt] at h
    injection h with h
    subst h
    exact ⟨hb, rfl⟩

theorem step_preserves_bound (s : ManagerState) (e : Event) (s' : ManagerState)
    (he : ∀ v, e ≠ Event.setMax v) (h : step s e = .ok s')
    (hb : s.active_workers.length ≤ s.maxThreads) :
    s'.active_workers.length ≤ s'.maxThreads := by
  cases e with
  | submit tid t =>
    simp only [step, submit_task] at h
    exact (try_start_task_bound
      { s with tasks := dictSet s.tasks tid { t with progress := 0, status := "Pending" } }
      tid s' hb h).1
  | progress tid msg =>
    simp only [step] at h
    have h2 := update_task_status_ok s tid msg s' h
    subst h2
    exact hb
  | finished tid success msg =>
    simp only [step] at h
    unfold task_finished at h
    rcases hu : update_task_status s tid (if success then "Completed" else "Failed")
      with e1 | s1 <;> rw [hu] at h
    · cases h
    · have hs1 := update_task_status_ok s tid _ s1 hu
      subst hs1
      dsimp only at h
      have hlen : (s.active_workers.filter (fun w => w.task_id != tid)).length ≤
          s.maxThreads := le_trans (List.length_filter_le _ _) hb
      rcases hp : firstPending (setStatus s.tasks tid
          (if success then "Completed" else "Failed")) with _ | p <;> rw [hp] at h
      · injection h with h
        subst h
        exact hlen
      · exact (try_start_task_bound _ p s' hlen h).1
  | cancel tid =>
    simp only [step] at h
    rcases hc : cancel_task s tid with e1 | pr <;> rw [hc] at h
    · simp [Except.map] at h
    · have hpr : pr.1 = s' := by
        simpa [Except.map] using h
      unfold cancel_task at hc
      rcases hl : lookupTask s.tasks tid with _ | tk <;> rw [hl] at hc
      · simp at hc
      · dsimp only at hc
        have hlen : (s.active_workers.eraseP (fun w => w.task_id == tid)).length ≤
            s.maxThreads :=
          le_trans (List.Sublist.length_le (List.eraseP_sublist _)) hb
        rcases hp : firstPending (setStatus s.tasks tid "Cancelled")
            with _ | p <;> rw [hp] at hc <;> dsimp only at hc
        · injection hc with hc
          rw [← hpr, ← hc]
          exact hlen
        · rcases ht : try_start_task { s with
              active_workers := s.active_workers.eraseP (fun w => w.task_id == tid),
              tasks := setStatus s.tasks tid "Cancelled" } p
            with e2 | s2 <;> rw [ht] at hc
          · simp [Except.map] at hc
          · simp only [Except.map, Except.ok.injEq] at hc
            have h2 := (try_start_task_bound _ p s2 hlen ht).1
            rw [← hpr, ← hc]
            exact h2
  | setMax v =>
    exact absurd rfl (he v)

/-- C1: `try_start_task` admits a task only when the number of active workers
is strictly below the pool's maximum thread count, so every manager step other
than a `setMaxThreadCount` change preserves the bound `running ≤ maxThreads`;
`update_thread_count` itself touches neither the active workers nor the tasks
(no preemption), and after lowering the bound to at most the current number of
active workers `try_start_task` admits nothing. -/
theorem c1_running_bounded_by_max_threads :
    (∀ s tid, s.maxThreads ≤ s.active_workers.length →
      try_start_task s tid = .ok s) ∧
    (∀ s tid s', try_start_task s tid = .ok s' → s' ≠ s →
      s.active_workers.length < s.maxThreads) ∧
    (∀ s e s', (∀ v, e ≠ Event.setMax v) → step s e = .ok s' →
      s.active_workers.length ≤ s.maxThreads →
      s'.active_workers.length ≤ s'.maxThreads) ∧
    (∀ v s, (update_thread_count v s).active_workers = s.active_workers ∧
      (update_thread_count v s).tasks = s.tasks) ∧
    (∀ v s tid, v ≤ s.active_workers.length →
      try_start_task (update_thread_count v s) tid = .ok (update_thread_count v s)) := by
  refine ⟨try_start_task_full, ?_, step_preserves_bound, fun v s => ⟨rfl, rfl⟩, ?_⟩
  · intro s tid s' h hne
    by_cases hlt : s.active_workers.length < s.maxThreads
    · exact hlt
    · unfold try_start_task at h
      rw [if_neg hlt] at h
      injection h with h
      exact absurd h.symm hne
  · intro v s tid hv
    exact try_start_task_full _ tid hv

/-- A demonstration task used by the concrete manager states below. -/
def wTask : CompressionTask :=
  { input_path := "a.mp4", output_path := "a_compressed.mp4",
    preset := .BALANCED, crf := 23 }

/-- A manager at full capacity: one worker, bound 1. -/
def wFull : ManagerState :=
  { tasks := [("t1", { wTask with status := "Processing..." })],
    active_workers := [{ task_id := "t1" }], maxThreads := 1 }

/-- `wFull` after a progress message for `t1`. -/
def wProgressed : ManagerState :=
  { wFull with tasks := [("t1", { wTask with status := "frame=1" })] }

/-- Witness for C1: at full capacity `try_start_task` is a no-op, a progress
step keeps the bound, and after `setMaxThreadCount 1` admission stays
suppressed. -/
theorem c1_running_bounded_witness :
    try_start_task wFull "t1" = .ok wFull ∧
    wProgressed.active_workers.length ≤ wProgressed.maxThreads ∧
    try_start_task (update_thread_count 1 wFull) "t1" =
      .ok (update_thread_count 1 wFull) :=
  ⟨c1_running_bounded_by_max_threads.1 wFull "t1" (by decide),
   c1_running_bounded_by_max_threads.2.2.1 wFull (.progress "t1" "frame=1")
     wProgressed (fun v h => Event.noConfusion h) (by rfl) (by decide),
   c1_running_bounded_by_max_threads.2.2.2.2 1 wFull "t1" (by decide)⟩

theorem firstPending_decomp (ts : List (String × CompressionTask)) (p : String)
    (h : firstPending ts = some p) :
    ∃ pre t post, ts = pre ++ (p, t) :: post ∧ t.status = "Pending" ∧
      ∀ q ∈ pre, q.2.status ≠ "Pending" := by
  induction ts with
  | nil => exact Option.noConfusion h
  | cons kt ts ih =>
    by_cases hf : (kt.2.status == "Pending") = true
    · unfold firstPending at h
      rw [List.find?_cons_of_pos (p := fun kt => kt.2.status == "Pending") (a := kt)
        ts hf] at h
      simp only [Option.map_some', Option.some.injEq] at h
      refine ⟨[], kt.2, ts, ?_, by simpa using hf, by simp⟩
      rw [← h]
      rfl
    · unfold firstPending at h
      rw [List.find?_cons_of_neg (p := fun kt => kt.2.status == "Pending") (a := kt)
        ts hf] at h
      obtain ⟨pre, t, post, heq, hstat, hpre⟩ := ih h
      refine ⟨kt :: pre, t, post, by rw [List.cons_append, heq], hstat, ?_⟩
      intro q hq
      rcases List.mem_cons.mp hq with rfl | hq
      · simpa using hf
      · exact hpre q hq

theorem setStatus_keys (ts : List (String × CompressionTask)) (tid st : String) :
    (setStatus ts tid st).map (·.1) = ts.map (·.1) := by
  induction ts with
  | nil => rfl
  | cons kt ts ih =>
    simp only [setStatus, List.map_cons] at ih ⊢
    by_cases hif : (kt.1 == tid) = true
    · rw [if_pos hif]
      simpa using ih
    · rw [if_neg hif]
      simpa using ih

theorem lookupTask_isSome_of_mem (ts : List (String × CompressionTask))
    (p : String) (t : CompressionTask) (h : (p, t) ∈ ts) :
    (lookupTask ts p).isSome := by
  unfold lookupTask
  rcases hf : ts.find? (fun kt => kt.1 == p) with _ | kt
  · exfalso
    have h2 := List.find?_eq_none.mp hf (p, t) h
    simp at h2
  · rw [hf]
    rfl

theorem lookupStatus_setStatus_self (ts : List (String × CompressionTask))
    (tid st : String) (h : (lookupTask ts tid).isSome) :
    lookupStatus (setStatus ts tid st) tid = some st := by
  induction ts with
  | nil => simp [lookupTask] at h
  | cons kt ts ih =>
    by_cases hif : (kt.1 == tid) = true
    · simp only [lookupStatus, lookupTask, setStatus, List.map_cons]
      rw [if_pos hif]
      rw [List.find?_cons_of_pos (p := fun kt => kt.1 == tid)
        (a := ((kt.1, { kt.2 with status := st }) : String × CompressionTask)) _ hif]
      rfl
    · simp only [lookupStatus, lookupTask, setStatus, List.map_cons] at ih ⊢
      rw [if_neg hif]
      rw [List.find?_cons_of_neg (p := fun kt => kt.1 == tid) (a := kt) _ hif]
      apply ih
      unfold lookupTask at h
      rw [List.find?_cons_of_neg (p := fun kt => kt.1 == tid) (a := kt) _ hif] at h
      exact h

/-- C3: when a running task finishes, the task handed to `try_start_task` is
the first entry of the insertion-ordered dict whose status is "Pending" — no
earlier entry is Pending — and, one slot having just been freed, it is
actually admitted: its worker is appended and its status becomes
"Processing...".  Newly submitted tasks enter at the end of the dict order. -/
theorem c3_fifo_admission :
    (∀ s tid success msg s' tk,
      lookupTask s.tasks tid = some tk →
      (∃ w ∈ s.active_workers, w.task_id = tid) →
      s.active_workers.length ≤ s.maxThreads →
      task_finished s tid success msg = .ok s' →
      ∀ p, firstPending
          (setStatus s.tasks tid (if success then "Completed" else "Failed")) = some p →
      (∃ pre t post,
        setStatus s.tasks tid (if success then "Completed" else "Failed") =
          pre ++ (p, t) :: post ∧ t.status = "Pending" ∧
          ∀ q ∈ pre, q.2.status ≠ "Pending") ∧
      s'.active_workers =
        s.active_workers.filter (fun w => w.task_id != tid) ++ [{ task_id := p }] ∧
      lookupStatus s'.tasks p = some "Processing...") ∧
    (∀ s tid t s', (∀ kt ∈ s.tasks, kt.1 ≠ tid) →
      submit_task s tid t = .ok s' →
      s'.tasks.map (·.1) = s.tasks.map (·.1) ++ [tid]) := by
  constructor
  · intro s tid success msg s' tk hlk hw hb h p hp
    unfold task_finished at h
    rcases hu : update_task_status s tid (if success then "Completed" else "Failed")
      with e1 | s1 <;> rw [hu] at h
    · unfold update_task_status at hu
      rw [hlk] at hu
      cases hu
    · have hs1 := update_task_status_ok s tid _ s1 hu
      subst hs1
      dsimp only at h
      rw [hp] at h
      dsimp only at h
      obtain ⟨w, hwmem, hwid⟩ := hw
      have hlt : (s.active_workers.filter (fun w => w.task_id != tid)).length <
          s.active_workers.length := by
        apply List.length_filter_lt_length_iff_exists.mpr
        exact ⟨w, hwmem, by simp [hwid]⟩
      have hguard : (s.active_workers.filter (fun w => w.task_id != tid)).length <
          s.maxThreads := lt_of_lt_of_le hlt hb
      obtain ⟨pre, t, post, heq, hstat, hpre⟩ := firstPending_decomp _ _ hp
      have hmem : (p, t) ∈
          setStatus s.tasks tid (if success then "Completed" else "Failed") := by
        rw [heq]
        simp
      have hlk2 := lookupTask_isSome_of_mem _ p t hmem
      unfold try_start_task at h
      dsimp only at h
      rw [if_pos hguard] at h
      rcases hl2 : lookupTask
          (setStatus s.tasks tid (if success then "Completed" else "Failed")) p
        with _ | tk2 <;> rw [hl2] at hlk2 h
      · cases hlk2
      · injection h with h
        subst h
        refine ⟨⟨pre, t, post, heq, hstat, hpre⟩, rfl, ?_⟩
        exact lookupStatus_setStatus_self _ p "Processing..." (by rw [hl2]; rfl)
  · intro s tid t s' hfresh h
    simp only [submit_task] at h
    have hkeys : dictSet s.tasks tid { t with progress := 0, status := "Pending" } =
        s.tasks ++ [(tid, { t with progress := 0, status := "Pending" })] := by
      unfold dictSet
      rw [if_neg]
      simp only [List.any_eq_true, not_exists, not_and]
      intro kt hkt
      simpa using hfresh kt hkt
    unfold try_start_task at h
    dsimp only at h
    by_cases hg : s.active_workers.length < s.maxThreads
    · rw [if_pos hg] at h
      rcases hl : lookupTask (dictSet s.tasks tid
          { t with progress := 0, status := "Pending" }) tid with _ | tk
        <;> rw [hl] at h
      · cases h
      · injection h with h
        subst h
        dsimp only
        rw [setStatus_keys, hkeys, List.map_append]
        rfl
    · rw [if_neg hg] at h
      injection h with h
      subst h
      dsimp only
      rw [hkeys, List.map_append]
      rfl

/-- Concrete state for the C3 witness: task `a` running, `b` and `c` pending
(submitted in that order), bound 2. -/
def fifoState : ManagerState :=
  { tasks := [("a", { wTask with status := "Processing..." }),
              ("b", wTask), ("c", wTask)],
    active_workers := [{ task_id := "a" }], maxThreads := 2 }

/-- `fifoState` after `task_finished "a" success`: `a` Completed, `b` admitted. -/
def fifoStateAfter : ManagerState :=
  { tasks := [("a", { wTask with status := "Completed" }),
              ("b", { wTask with status := "Processing..." }), ("c", wTask)],
    active_workers := [{ task_id := "b" }], maxThreads := 2 }

/-- Witness for C3: in `fifoState` the finish of `a` admits exactly `b` (the
earliest Pending task), and a fresh submission lands at the end of the dict
order. -/
theorem c3_fifo_admission_witness :
    (fifoStateAfter.active_workers =
      fifoState.active_workers.filter (fun w => w.task_id != "a") ++
        [{ task_id := "b" }] ∧
      lookupStatus fifoStateAfter.tasks "b" = some "Processing...") ∧
    ∀ s' : ManagerState, submit_task fifoState "d" wTask = .ok s' →
      s'.tasks.map (·.1) = fifoState.tasks.map (·.1) ++ ["d"] := by
  constructor
  · have h := (c3_fifo_admission.1 fifoState "a" true "done" fifoStateAfter
      { wTask with status := "Processing..." } (by rfl)
      ⟨{ task_id := "a" }, by simp [fifoState], rfl⟩ (by decide) (by rfl) "b" (by rfl))
    exact ⟨h.2.1, h.2.2⟩
  · intro s' h
    exact c3_fifo_admission.2 fifoState "d" wTask s' (by decide) h

/-- Concrete state for C2: task `t1` running with a live worker, `t2` pending,
bound 1. -/
def c2State : ManagerState :=
  { tasks := [("t1", { wTask with status := "Processing..." }), ("t2", wTask)],
    active_workers := [{ task_id := "t1" }], maxThreads := 1 }

/-- `c2State` after `cancel_task "t1"`. -/
def c2StateAfter : ManagerState :=
  { tasks := [("t1", { wTask with status := "Cancelled" }),
              ("t2", { wTask with status := "Processing..." })],
    active_workers := [{ task_id := "t2" }], maxThreads := 1 }

/-- C2 (evaluation at the failing input): cancelling the running task `t1`
removes its worker with only the QThread terminated — `procTerminated` is
still `false`, i.e. the ffmpeg child process launched inside `compress_video`
never receives a terminate call, because `cancel_task` calls
`worker.terminate()` (a thread kill) and no executed code path holds a handle
to the encoder process.  The rest of the claimed behaviour does hold: the task
settles to "Cancelled" (not "Failed") and the next pending task `t2` is
admitted. -/
theorem c2_cancel_running_task_eval :
    cancel_task c2State "t1" =
      .ok (c2StateAfter,
        some { task_id := "t1", threadTerminated := true, procTerminated := false }) ∧
    lookupStatus c2StateAfter.tasks "t1" = some "Cancelled" ∧
    lookupStatus c2StateAfter.tasks "t2" = some "Processing..." ∧
    ("Cancelled" : String) ≠ "Failed" := by
  refine ⟨rfl, rfl, rfl, by decide⟩

/-- Concrete state for C4: the only task is already terminal (Completed) and
no worker is active. -/
def c4State : ManagerState :=
  { tasks := [("t1", { wTask with status := "Completed" })],
    active_workers := [], maxThreads := 2 }

/-- `c4State` after `cancel_task "t1"`. -/
def c4StateAfter : ManagerState :=
  { tasks := [("t1", { wTask with status := "Cancelled" })],
    active_workers := [], maxThreads := 2 }

/-- Counterexample to C4: cancelling the already-Completed task `t1` is not a
no-op — `cancel_task` unconditionally rewrites its status, so the Completed
task re-enters the Cancelled state. -/
theorem c4_cancel_terminal_not_noop :
    lookupStatus c4State.tasks "t1" = some "Completed" ∧
    cancel_task c4State "t1" = .ok (c4StateAfter, none) ∧
    lookupStatus c4StateAfter.tasks "t1" = some "Cancelled" ∧
    ("Cancelled" : String) ≠ "Completed" := by
  refine ⟨rfl, rfl, rfl, by decide⟩

theorem lookupTask_setStatus_self (ts : List (String × CompressionTask))
    (tid st : String) (tk : CompressionTask) (h : lookupTask ts tid = some tk) :
    lookupTask (setStatus ts tid st) tid = some { tk with status := st } := by
  induction ts with
  | nil => exact Option.noConfusion h
  | cons kt ts ih =>
    by_cases hif : (kt.1 == tid) = true
    · unfold lookupTask at h
      rw [List.find?_cons_of_pos (p := fun kt => kt.1 == tid) (a := kt) ts hif] at h
      simp only [Option.map_some', Option.some.injEq] at h
      subst h
      unfold lookupTask setStatus
      simp only [List.map_cons]
      rw [if_pos hif]
      rw [List.find?_cons_of_pos (p := fun kt => kt.1 == tid)
        (a := ((kt.1, { kt.2 with status := st }) : String × CompressionTask)) _ hif]
      rfl
    · unfold lookupTask at h
      rw [List.find?_cons_of_neg (p := fun kt => kt.1 == tid) (a := kt) ts hif] at h
      unfold lookupTask setStatus at ih ⊢
      simp only [List.map_cons]
      rw [if_neg hif]
      rw [List.find?_cons_of_neg (p := fun kt => kt.1 == tid) (a := kt) _ hif]
      exact ih h

theorem lookupTask_setStatus_other (ts : List (String × CompressionTask))
    (p st tid : String) (hne : p ≠ tid) :
    lookupTask (setStatus ts p st) tid = lookupTask ts tid := by
  induction ts with
  | nil => rfl
  | cons kt ts ih =>
    unfold lookupTask setStatus at ih ⊢
    simp only [List.map_cons]
    by_cases hip : (kt.1 == p) = true
    · rw [if_pos hip]
      have hkt : (kt.1 == tid) = false := by
        have : kt.1 = p := by simpa using hip
        simp [this, hne]
      rw [List.find?_cons_of_neg (p := fun kt => kt.1 == tid)
        (a := ((kt.1, { kt.2 with status := st }) : String × CompressionTask)) _
        (by simp [hkt])]
      rw [List.find?_cons_of_neg (p := fun kt => kt.1 == tid) (a := kt) _
        (by simp [hkt])]
      exact ih
    · rw [if_neg hip]
      by_cases hit : (kt.1 == tid) = true
      · rw [List.find?_cons_of_pos (p := fun kt => kt.1 == tid) (a := kt) _ hit]
        rw [List.find?_cons_of_pos (p := fun kt => kt.1 == tid) (a := kt) _ hit]
      · rw [List.find?_cons_of_neg (p := fun kt => kt.1 == tid) (a := kt) _ hit]
        rw [List.find?_cons_of_neg (p := fun kt => kt.1 == tid) (a := kt) _ hit]
        exact ih

theorem mem_setStatus_key_status (ts : List (String × CompressionTask))
    (tid st : String) (q : String × CompressionTask)
    (hq : q ∈ setStatus ts tid st) (hteq : q.1 = tid) : q.2.status = st := by
  unfold setStatus at hq
  obtain ⟨kt, hkt, hmap⟩ := List.mem_map.mp hq
  by_cases hif : (kt.1 == tid) = true
  · rw [if_pos hif] at hmap
    rw [← hmap]
  · rw [if_neg hif] at hmap
    subst hmap
    exact absurd hteq (by simpa using hif)

/-- C4 amended: cancelling an already-terminal task terminates no worker and
removes nothing from `active_workers` (the returned removed-worker slot is
`none` and the previous workers survive as a sublist — `cancel_task` may still
admit a new Pending task), but it unconditionally rewrites the task's status
to "Cancelled"; the task entry is unchanged only when it was already
Cancelled. -/
theorem c4_cancel_terminal_overwrites_status (s : ManagerState) (tid : String)
    (tk : CompressionTask) (r : ManagerState × Option Worker)
    (hlk : lookupTask s.tasks tid = some tk)
    (hterm : tk.status = "Completed" ∨ tk.status = "Failed" ∨ tk.status = "Cancelled")
    (hnw : ∀ w ∈ s.active_workers, w.task_id ≠ tid)
    (h : cancel_task s tid = .ok r) :
    r.2 = none ∧
    List.Sublist s.active_workers r.1.active_workers ∧
    lookupTask r.1.tasks tid = some { tk with status := "Cancelled" } ∧
    (tk.status = "Cancelled" → lookupTask r.1.tasks tid = some tk) := by
  have hfind : s.active_workers.find? (fun w => w.task_id == tid) = none :=
    List.find?_eq_none.mpr (fun w hw => by simp [hnw w hw])
  have herase : s.active_workers.eraseP (fun w => w.task_id == tid) =
      s.active_workers :=
    List.eraseP_of_forall_not (fun w hw => by simp [hnw w hw])
  have hlk1 : lookupTask (setStatus s.tasks tid "Cancelled") tid =
      some { tk with status := "Cancelled" } :=
    lookupTask_setStatus_self s.tasks tid "Cancelled" tk hlk
  unfold cancel_task at h
  rw [hlk] at h
  dsimp only at h
  rw [hfind] at h
  rcases hp : firstPending (setStatus s.tasks tid "Cancelled") with _ | p
    <;> rw [hp] at h <;> dsimp only at h
  · injection h with h
    subst h
    refine ⟨rfl, by rw [herase], hlk1, fun hc => ?_⟩
    rw [hlk1, hc.symm]
  · have hptid : p ≠ tid := by
      intro heq
      obtain ⟨pre, t, post, heq2, hstat, _⟩ := firstPending_decomp _ _ hp
      have hmem : (p, t) ∈ setStatus s.tasks tid "Cancelled" := by
        rw [heq2]
        simp
      have hst := mem_setStatus_key_status _ tid "Cancelled" (p, t) hmem heq
      rw [hstat] at hst
      exact absurd hst (by decide)
    rcases ht : try_start_task { s with
        active_workers := s.active_workers.eraseP (fun w => w.task_id == tid),
        tasks := setStatus s.tasks tid "Cancelled" } p
      with e2 | s2 <;> rw [ht] at h
    · simp [Except.map] at h
    · simp only [Except.map, Except.ok.injEq] at h
      subst h
      unfold try_start_task at ht
      dsimp only at ht
      by_cases hg : (s.active_workers.eraseP (fun w => w.task_id == tid)).length <
          s.maxThreads
      · rw [if_pos hg] at ht
        rcases hl2 : lookupTask (setStatus s.tasks tid "Cancelled") p
          with _ | tk2 <;> rw [hl2] at ht
        · cases ht
        · injection ht with ht
          subst ht
          have hlx : lookupTask
              (setStatus (setStatus s.tasks tid "Cancelled") p "Processing...") tid =
              some { tk with status := "Cancelled" } := by
            rw [lookupTask_setStatus_other _ p "Processing..." tid hptid, hlk1]
          refine ⟨rfl, ?_, hlx, fun hc => ?_⟩
          · rw [herase]
            exact List.sublist_append_left _ _
          · rw [hlx, hc.symm]
      · rw [if_neg hg] at ht
        injection ht with ht
        subst ht
        refine ⟨rfl, by rw [herase], hlk1, fun hc => ?_⟩
        rw [hlk1, hc.symm]

/-- Witness for C4's amended theorem at the concrete terminal state. -/
theorem c4_cancel_terminal_witness :
    lookupTask c4StateAfter.tasks "t1" =
      some { wTask with status := "Cancelled" } ∧
    List.Sublist c4State.active_workers c4StateAfter.active_workers := by
  have h := c4_cancel_terminal_overwrites_status c4State "t1"
    { wTask with status := "Completed" } (c4StateAfter, none) rfl
    (Or.inl rfl) (by simp [c4State]) rfl
  exact ⟨h.2.2.1, h.2.1⟩

/-- C9: calling `cancel_task` with an id that was never submitted raises
`KeyError` — the method indexes the tasks dictionary before any other
check. -/
theorem c9_cancel_unknown_id_keyerror (s : ManagerState) (tid : String)
    (h : lookupTask s.tasks tid = none) :
    cancel_task s tid = .error (.keyError tid) := by
  unfold cancel_task
  rw [h]

/-- Witness for C9: cancelling `"ghost"` on an empty manager. -/
theorem c9_cancel_unknown_id_witness :
    cancel_task { tasks := [], active_workers := [], maxThreads := 2 } "ghost" =
      .error (.keyError "ghost") :=
  c9_cancel_unknown_id_keyerror
    { tasks := [], active_workers := [], maxThreads := 2 } "ghost" rfl

/-- The dictionary produced by `get_video_info` on success. -/
structure VideoInfo where
  width : Nat
  height : Nat
  duration : ℚ
  frame_count : Nat
  file_size : Nat
deriving DecidableEq, Repr

/-- The slice of external state consulted by `compress_video` before launching
the encoder: the outcome of the `ffprobe` call — `get_video_info` returns the
empty dict, modelled `none`, whenever the probe cannot run, exits non-zero or
yields unparseable output — and the two `os` checks on the input path. -/
structure FsEnv where
  probeResult : Option VideoInfo
  inputExists : Bool
  inputReadable : Bool
deriving DecidableEq, Repr

/-- The pre-launch prefix of `compress_video` (`video_compressor.py` lines
145-160): probe, then existence check, then readability check; `some (ok,
msg)` is an early return, `none` means control proceeds to the encoder
invocation. -/
def compress_video_precheck (env : FsEnv) (input_path : String) :
    Option (Bool × String) :=
  match env.probeResult with
  | none => some (false, "Failed to get video information")
  | some _ =>
    if env.inputExists then
      if env.inputReadable then none
      else some (false, "Input file is not readable: " ++ input_path)
    else some (false, "Input file not found: " ++ input_path)

theorem failed_probe_msg_ne_not_found (p : String) :
    "Failed to get video information" ≠ "Input file not found: " ++ p := by
  intro h
  have h2 := congrArg (fun s => s.data.head?) h
  dsimp only at h2
  rw [String.data_append] at h2
  rw [show ("Failed to get video information").data.head? = some 'F' from rfl] at h2
  rw [show ("Input file not found: ").data = 'I' :: ("nput file not found: ").data
    from rfl] at h2
  simp at h2

theorem not_readable_msg_ne_not_found (p q : String) :
    "Input file is not readable: " ++ q ≠ "Input file not found: " ++ p := by
  intro h
  have h2 := congrArg (fun s => s.data[11]?) h
  dsimp only at h2
  rw [String.data_append, String.data_append] at h2
  rw [List.getElem?_append_left (by decide),
    List.getElem?_append_left (by decide)] at h2
  simp at h2

/-- C10: when the input file does not exist the probe fails first (ffprobe
exits non-zero on a missing file, so `get_video_info` returns the empty dict)
and `compress_video` returns the probe-failure message; consequently, in every
environment where a successful probe implies the file exists, the
"Input file not found" branch is unreachable. -/
theorem c10_probe_failure_shadows_not_found (env : FsEnv) (input_path : String) :
    (env.inputExists = false → env.probeResult = none →
      compress_video_precheck env input_path =
        some (false, "Failed to get video information")) ∧
    ((env.probeResult.isSome → env.inputExists = true) →
      compress_video_precheck env input_path ≠
        some (false, "Input file not found: " ++ input_path)) := by
  constructor
  · intro _ hp
    unfold compress_video_precheck
    rw [hp]
  · intro hcons h
    unfold compress_video_precheck at h
    rcases hpr : env.probeResult with _ | info <;> rw [hpr] at h
    · injection h with h
      exact failed_probe_msg_ne_not_found input_path (congrArg Prod.snd h)
    · have hex : env.inputExists = true := hcons (by rw [hpr]; rfl)
      rw [hex, if_pos rfl] at h
      by_cases hr : env.inputReadable = true
      · rw [hr, if_pos rfl] at h
        exact Option.noConfusion h
      · rw [if_neg (by simpa using hr)] at h
        injection h with h
        exact not_readable_msg_ne_not_found input_path input_path
          (congrArg Prod.snd h)

/-- An environment with a missing input file: the probe fails as ffprobe does
on a nonexistent path. -/
def c10Env : FsEnv :=
  { probeResult := none, inputExists := false, inputReadable := false }

/-- Witness for C10: a missing file with a failing probe yields the
probe-failure message and can never yield the not-found message. -/
theorem c10_probe_failure_witness :
    compress_video_precheck c10Env "missing.mp4" =
      some (false, "Failed to get video information") ∧
    compress_video_precheck c10Env "missing.mp4" ≠
      some (false, "Input file not found: " ++ "missing.mp4") := by
  constructor
  · exact (c10_probe_failure_shadows_not_found c10Env "missing.mp4").1 rfl rfl
  · exact (c10_probe_failure_shadows_not_found c10Env "missing.mp4").2
      (fun h => by cases h)

/-- The `QualityPreset` dataclass of `video_compressor_ui.py`. -/
structure QualityPreset where
  name : String
  resolution : Option (Int × Int)
  bitrate : Option String
  crf : Int
  preset : VideoPreset
deriving DecidableEq, Repr

/-- The `QUALITY_PRESETS` table; `none` models the `KeyError` a lookup with an
unknown name would raise. -/
def QUALITY_PRESETS : String → Option QualityPreset
  | "Low Quality" => some ⟨"Low Quality", some (854, 480), some "1M", 28, .FAST⟩
  | "Medium Quality" => some ⟨"Medium Quality", some (1280, 720), some "2M", 23, .BALANCED⟩
  | "High Quality" => some ⟨"High Quality", some (1920, 1080), some "4M", 18, .BEST⟩
  | "Custom" => some ⟨"Custom", none, none, 23, .BALANCED⟩
  | _ => none

/-- Snapshot of the widget values read by `validate_settings` and
`start_compression`.  The Qt spin boxes clamp what a user can submit
(`crf_spin.setRange(0, 51)`, `width_input.setRange(128, 7680)`,
`height_input.setRange(128, 4320)`, `bitrate_input.setRange(100, 50000)`);
those ranges are widget behaviour outside the compression code, so they enter
the theorems below as hypotheses, not as type invariants. -/
structure UISettings where
  quality_preset : String
  preset_combo : VideoPreset
  crf_spin : Int
  resolution_combo : String
  width_input : Int
  height_input : Int
  bitrate_combo : String
  bitrate_input : Int
deriving DecidableEq, Repr

/-- `validate_aspect_ratio`: |width/height − r| < 0.1 for one of 16:9, 4:3,
21:9.  Python float arithmetic is modelled exactly over `ℚ`; a zero height
would raise `ZeroDivisionError` in Python, which is unreachable through the
widgets (height ≥ 128) and outside the claims below. -/
def validate_aspect_ratio (width height : Int) : Bool :=
  let ratio : ℚ := (width : ℚ) / (height : ℚ)
  decide (|ratio - 16 / 9| < 1 / 10) || decide (|ratio - 4 / 3| < 1 / 10) ||
    decide (|ratio - 21 / 9| < 1 / 10)

/-- `VideoCompressorUI.validate_settings`: immediately `True` when a non-Custom
quality preset is selected; otherwise the even-dimension and aspect-ratio
checks for a Custom resolution and the 100 Kbps minimum for a Custom bitrate —
a raised `ValueError` is caught and turned into `False` (after a message
box).  No check mentions the CRF value or resolution positivity. -/
def validate_settings (s : UISettings) : Bool :=
  if s.quality_preset ≠ "Custom" then true
  else if s.resolution_combo = "Custom" ∧
      (s.width_input % 2 ≠ 0 ∨ s.height_input % 2 ≠ 0) then false
  else if s.resolution_combo = "Custom" ∧
      validate_aspect_ratio s.width_input s.height_input = false then false
  else if s.bitrate_combo = "Custom" ∧ s.bitrate_input < 100 then false
  else true

/-- The `resolution_map` dict of `get_resolution` (`dict.get`: `none` for an
unknown key). -/
def resolution_map : String → Option (Int × Int)
  | "1080p" => some (1920, 1080)
  | "720p" => some (1280, 720)
  | "480p" => some (854, 480)
  | _ => none

/-- `VideoCompressorUI.get_resolution`: `None` for Original, the spin-box pair
for Custom after re-running the aspect-ratio check (raising `ValueError` on
failure), the fixed map otherwise. -/
def get_resolution (s : UISettings) : Except PyErr (Option (Int × Int)) :=
  if s.resolution_combo = "Original" then .ok none
  else if s.resolution_combo = "Custom" then
    if validate_aspect_ratio s.width_input s.height_input then
      .ok (some (s.width_input, s.height_input))
    else .error (.valueError "Invalid aspect ratio. Please use standard video dimensions.")
  else .ok (resolution_map s.resolution_combo)

/-- `VideoCompressorUI.get_bitrate`: `None` for Auto, the spin-box value
rendered as an FFmpeg token for Custom, the combo text otherwise. -/
def get_bitrate (s : UISettings) : Option String :=
  if s.bitrate_combo = "Auto" then none
  else if s.bitrate_combo = "Custom" then
    if 1000 ≤ s.bitrate_input then some (toString (s.bitrate_input / 1000) ++ "M")
    else some (toString s.bitrate_input ++ "K")
  else some s.bitrate_combo

/-- Path separator characters recognised by `os.path` on Windows. -/
def isSep (c : Char) : Bool :=
  c == '/' || c == '\\'

/-- `os.path.splitext` on character lists: split off the extension at the last
dot of the basename, ignoring the basename's leading dots. -/
def splitextData (cs : List Char) : List Char × List Char :=
  let bLen := (cs.reverse.takeWhile (fun c => !(isSep c))).length
  let base := cs.drop (cs.length - bLen)
  let lead := (base.takeWhile (fun c => c == '.')).length
  let core := base.drop lead
  let afterDot := (core.reverse.takeWhile (fun c => !(c == '.'))).length
  if afterDot = core.length then (cs, [])
  else (cs.take (cs.length - (afterDot + 1)), cs.drop (cs.length - (afterDot + 1)))

/-- `os.path.splitext` on strings. -/
def splitext (p : String) : String × String :=
  ((splitextData p.data).1.asString, (splitextData p.data).2.asString)

/-- The body of `start_compression`'s per-file loop: derive the output path
`base_compressed.ext`, pick the effective settings — the preset table for a
named quality preset, the custom widgets otherwise — and construct the
`CompressionTask` dataclass. -/
def make_task (s : UISettings) (input_path : String) :
    Except PyErr CompressionTask :=
  let pr := splitext input_path
  let output_path := pr.1 ++ "_compressed" ++ pr.2
  if s.quality_preset ≠ "Custom" then
    match QUALITY_PRESETS s.quality_preset with
    | none => .error (.keyError s.quality_preset)
    | some pc =>
      .ok { input_path := input_path, output_path := output_path,
            preset := pc.preset, crf := pc.crf,
            resolution := pc.resolution, bitrate := pc.bitrate }
  else
    match get_resolution s with
    | .error e => .error e
    | .ok res =>
      .ok { input_path := input_path, output_path := output_path,
            preset := s.preset_combo, crf := s.crf_spin,
            resolution := res, bitrate := get_bitrate s }

/-- The `for input_path in self.input_files` loop of `start_compression`,
collecting the created tasks in order; an uncaught exception aborts the
loop. -/
def start_compression_loop (s : UISettings) :
    List String → Except PyErr (List CompressionTask)
  | [] => .ok []
  | f :: fs =>
    match make_task s f with
    | .error e => .error e
    | .ok t =>
      match start_compression_loop s fs with
      | .error e => .error e
      | .ok ts => .ok (t :: ts)

/-- `VideoCompressorUI.start_compression` restricted to task creation: an
empty selection or a failed `validate_settings` creates no tasks, otherwise
one task per selected file in list order. -/
def start_compression_tasks (s : UISettings) (input_files : List String) :
    Except PyErr (List CompressionTask) :=
  if input_files = [] then .ok []
  else if validate_settings s = false then .ok []
  else start_compression_loop s input_files

/-- Widget state with an out-of-range CRF: Custom quality, CRF spin value 100,
Original resolution, Auto bitrate. -/
def c8Settings : UISettings :=
  { quality_preset := "Custom", preset_combo := .BALANCED, crf_spin := 100,
    resolution_combo := "Original", width_input := 1920, height_input := 1080,
    bitrate_combo := "Auto", bitrate_input := 2000 }

/-- The task `start_compression` builds from `c8Settings` for `a.mp4`. -/
def c8Task : CompressionTask :=
  { input_path := "a.mp4", output_path := "a_compressed.mp4",
    preset := .BALANCED, crf := 100 }

/-- Counterexample to C8: with a CRF of 100 — far outside [0, 51] —
`validate_settings` still answers `True` and `start_compression` creates a
Task carrying `crf = 100`: no validation error precedes task creation. -/
theorem c8_crf_not_validated :
    validate_settings c8Settings = true ∧
    start_compression_tasks c8Settings ["a.mp4"] = .ok [c8Task] ∧
    ¬ c8Task.crf ≤ 51 := by
  refine ⟨rfl, rfl, by decide⟩

theorem make_task_bounds (s : UISettings) (f : String) (t : CompressionTask)
    (hc0 : 0 ≤ s.crf_spin) (hc1 : s.crf_spin ≤ 51)
    (hw : 128 ≤ s.width_input) (hh : 128 ≤ s.height_input)
    (h : make_task s f = .ok t) :
    (0 ≤ t.crf ∧ t.crf ≤ 51) ∧ ∀ wh ∈ t.resolution, 0 < wh.1 ∧ 0 < wh.2 := by
  unfold make_task at h
  dsimp only at h
  by_cases hq : s.quality_preset ≠ "Custom"
  · rw [if_pos hq] at h
    rcases hqp : QUALITY_PRESETS s.quality_preset with _ | pc <;> rw [hqp] at h
    · cases h
    · injection h with h
      subst h
      unfold QUALITY_PRESETS at hqp
      split at hqp <;> cases hqp <;> refine ⟨by norm_num, ?_⟩ <;> intro wh hwh <;>
        rw [Option.mem_def] at hwh <;> dsimp only at hwh <;> cases hwh <;> norm_num
  · rw [if_neg hq] at h
    rcases hr : get_resolution s with e | res <;> rw [hr] at h
    · cases h
    · injection h with h
      subst h
      refine ⟨⟨hc0, hc1⟩, ?_⟩
      unfold get_resolution at hr
      split at hr
      · injection hr with hr
        subst hr
        simp
      · split at hr
        · split at hr
          · injection hr with hr
            subst hr
            intro wh hwh
            rw [Option.mem_def, Option.some.injEq] at hwh
            subst hwh
            exact ⟨by omega, by omega⟩
          · cases hr
        · injection hr with hr
          subst hr
          unfold resolution_map
          split <;> first
            | (intro wh hwh
               rw [Option.mem_def, Option.some.injEq] at hwh
               subst hwh
               exact ⟨by decide, by decide⟩)
            | simp

theorem start_compression_loop_mem (s : UISettings) (files : List String)
    (ts : List CompressionTask) (h : start_compression_loop s files = .ok ts) :
    ∀ t ∈ ts, ∃ f, make_task s f = .ok t := by
  induction files generalizing ts with
  | nil =>
    injection h with h
    subst h
    simp
  | cons f fs ih =>
    unfold start_compression_loop at h
    rcases hm : make_task s f with e | t0 <;> rw [hm] at h
    · cases h
    · rcases hl : start_compression_loop s fs with e | ts0 <;> rw [hl] at h
      · cases h
      · injection h with h
        subst h
        intro t ht
        rcases List.mem_cons.mp ht with rfl | ht
        · exact ⟨f, hm⟩
        · exact ih ts0 hl t ht

/-- C8 amended: neither `validate_settings` nor the task-creation path checks
the CRF range or resolution positivity — out-of-range values are excluded only
by the widget ranges.  Under those ranges (CRF spin 0–51, width and height
spins at least 128) every Task that `start_compression` creates carries a CRF
in [0, 51] and a positive resolution. -/
theorem c8_widget_ranges_bound_tasks (s : UISettings) (files : List String)
    (ts : List CompressionTask)
    (hc0 : 0 ≤ s.crf_spin) (hc1 : s.crf_spin ≤ 51)
    (hw : 128 ≤ s.width_input) (hh : 128 ≤ s.height_input)
    (h : start_compression_tasks s files = .ok ts) :
    ∀ t ∈ ts, (0 ≤ t.crf ∧ t.crf ≤ 51) ∧
      ∀ wh ∈ t.resolution, 0 < wh.1 ∧ 0 < wh.2 := by
  unfold start_compression_tasks at h
  split at h
  · injection h with h
    subst h
    simp
  · split at h
    · injection h with h
      subst h
      simp
    · intro t ht
      obtain ⟨f, hf⟩ := start_compression_loop_mem s files ts h t ht
      exact make_task_bounds s f t hc0 hc1 hw hh hf

/-- Widget state inside all spin ranges with the Medium Quality preset. -/
def c8WSettings : UISettings :=
  { quality_preset := "Medium Quality", preset_combo := .BALANCED, crf_spin := 23,
    resolution_combo := "720p", width_input := 1920, height_input := 1080,
    bitrate_combo := "Auto", bitrate_input := 2000 }

/-- The task created from `c8WSettings` for `b.mp4`. -/
def c8WTask : CompressionTask :=
  { input_path := "b.mp4", output_path := "b_compressed.mp4",
    preset := .BALANCED, crf := 23, resolution := some (1280, 720),
    bitrate := some "2M" }

/-- Witness for C8's amended theorem at a concrete in-range widget state. -/
theorem c8_widget_ranges_witness :
    (0 ≤ c8WTask.crf ∧ c8WTask.crf ≤ 51) ∧ 0 < (1280 : Int) ∧ 0 < (720 : Int) := by
  have h := c8_widget_ranges_bound_tasks c8WSettings ["b.mp4"] [c8WTask]
    (by decide) (by decide) (by decide) (by decide) rfl
  have h2 := h c8WTask (List.mem_singleton.mpr rfl)
  exact ⟨h2.1, h2.2 (1280, 720) rfl⟩

end CompressionGenie
